import Mathlib

/-!
# Verification of GLFWM's coordination core

Shallow embedding of the identifier allocation scheme, the shared-mutex pool,
the window-group machinery, the update queue and the owning-thread main loop
of the GLFWM library (`src/window.cpp`, `src/window_group.cpp`,
`include/GLFWM/enums.hpp`, `include/GLFWM/utility.hpp`).

`size_t` identifiers are modelled as `Nat`; the reserved sentinel values from
`enums.hpp` are the top values of the 64-bit range, written explicitly.
`std::deque` containers are modelled as `List`, `std::unordered_map` /
`std::unordered_set` as association lists / lists-used-as-sets (the C++
iteration order of an unordered container is arbitrary; the embedding fixes
the list order as one admissible order).
-/

namespace Glfwm

/-- `enums.hpp`: `AllWindowIDs = numeric_limits<size_t>::max()`. -/
def AllWindowIDs : Nat := 2 ^ 64 - 1

/-- `enums.hpp`: `WholeGroupWindowIDs = max() - 1`. -/
def WholeGroupWindowIDs : Nat := 2 ^ 64 - 2

/-- `enums.hpp`: `LastWindowID = max() - 2`. -/
def LastWindowID : Nat := 2 ^ 64 - 3

/-- `enums.hpp`: `AllWindowGroupIDs = max()`. -/
def AllWindowGroupIDs : Nat := 2 ^ 64 - 1

/-- `enums.hpp`: `AnyWindowGroupID = max() - 1`. -/
def AnyWindowGroupID : Nat := 2 ^ 64 - 2

/-- `enums.hpp`: `NoWindowGroupID = max() - 2`. -/
def NoWindowGroupID : Nat := 2 ^ 64 - 3

/-- `enums.hpp`: `LastWindowGroupID = max() - 3`. -/
def LastWindowGroupID : Nat := 2 ^ 64 - 4

/-! ## Shared-mutex pool (`Window::mutexes`, `Window::freedMutexes`) -/

/-- The static shared-mutex pool of `Window`: `mutexes` is the deque of
`MutexData` (only the `count` field matters for the logic; the
`std::recursive_mutex` itself carries no state we model), `freed` is the
sorted deque `freedMutexes` of indices available for reuse. -/
structure MutexPool where
  counts : List Nat
  freed : List Nat
deriving Repr, DecidableEq

/-- `deque::resize(n)`: extend with value-initialized `MutexData` (count 0). -/
def padTo (l : List Nat) (n : Nat) : List Nat :=
  l ++ List.replicate (n - l.length) 0

/-- `std::lower_bound` insert guarded against duplicates, as in
`Window::decreaseMutexCount`: insert before the first element `≥ x`,
skipping the insertion when that element equals `x`. -/
def insertSortedNoDup (x : Nat) : List Nat → List Nat
  | [] => [x]
  | y :: ys =>
    if y < x then y :: insertSortedNoDup x ys
    else if y = x then y :: ys
    else x :: y :: ys

/-- Plain `std::lower_bound` insert with no duplicate check, as in
`Window::freeWindowID` and `WindowGroup::destroy`. -/
def insertSorted (x : Nat) : List Nat → List Nat
  | [] => [x]
  | y :: ys => if y < x then y :: insertSorted x ys else x :: y :: ys

/-- `Window::newMutexID`: take the smallest freed index if any, else the next
fresh index; resize the pool if needed; increment the slot's user count. -/
def newMutexID (p : MutexPool) : Nat × MutexPool :=
  let id := match p.freed with
    | [] => p.counts.length
    | i :: _ => i
  let freed := match p.freed with
    | [] => ([] : List Nat)
    | _ :: r => r
  let counts := if p.counts.length ≤ id then padTo p.counts (id + 1) else p.counts
  (id, ⟨counts.set id (counts.getD id 0 + 1), freed⟩)

/-- `Window::decreaseMutexCount`: no-op on an out-of-range or already-zero
slot; otherwise decrement, and at zero return the index to the sorted free
list (with the duplicate guard). -/
def decreaseMutexCount (p : MutexPool) (id : Nat) : MutexPool :=
  if p.counts.length ≤ id then p
  else
    let c := p.counts.getD id 0
    if c = 0 then p
    else
      let counts := p.counts.set id (c - 1)
      if c - 1 = 0 then ⟨counts, insertSortedNoDup id p.freed⟩
      else ⟨counts, p.freed⟩

/-! ## Windows and the window registry (`window.cpp`) -/

/-- One `Window` object: its immutable `windowID`, its `sharedMutexID`, and
whether `glfwWindow` is still non-null (`alive`). -/
structure WinRec where
  windowID : Nat
  sharedMutexID : Nat
  alive : Bool
deriving Repr, DecidableEq

/-- The static state of the window side: the mutex pool, the arena of all
constructed `Window` objects (in construction order; a destroyed window
stays in the arena with `alive := false`, mirroring a caller-held
`shared_ptr` whose `glfwWindow` was released), the `windows` deque
(occupancy of each slot), `freedWindowIDs`, and the native-handle map
`windowsMap` (modelled by the list of registered window ids). -/
structure WinSys where
  pool : MutexPool
  objs : List WinRec
  windowSlots : List Bool
  freedWindowIDs : List Nat
  windowsMap : List Nat
deriving Repr, DecidableEq

def WinSys.empty : WinSys := ⟨⟨[], []⟩, [], [], [], []⟩

/-- `Window::newWindowID`: smallest freed ID if any, else the next index,
resizing the `windows` deque (empty slots) as needed. -/
def newWindowID (s : WinSys) : Nat × WinSys :=
  let id := match s.freedWindowIDs with
    | [] => s.windowSlots.length
    | i :: _ => i
  let freed := match s.freedWindowIDs with
    | [] => ([] : List Nat)
    | _ :: r => r
  let slots := if s.windowSlots.length ≤ id then
      s.windowSlots ++ List.replicate (id + 1 - s.windowSlots.length) false
    else s.windowSlots
  (id, { s with windowSlots := slots, freedWindowIDs := freed })

/-- The observable failure of window creation (`std::runtime_error` thrown
from `Window::Window` when `glfwCreateWindow` returns null). -/
inductive CreationError where
  | creationError
deriving Repr, DecidableEq

/-- `Window::newWindow` followed by `Window::Window`, with the window-system
collaborator's outcome exposed as the parameter `fail`. The constructor's
initializer list runs first: with a `share` window the `sharedMutexID` is
copied from it (the pool is untouched — no count increment in the source),
otherwise `newMutexID()` books a slot. Then `glfwCreateWindow` runs; on
failure the constructor throws and neither `windowsMap.insert` nor the
`windows[id]` assignment happens — and nothing already done is undone. -/
def newWindow (fail : Bool) (share : Option Nat) (s : WinSys) :
    Except CreationError Nat × WinSys :=
  let (id, s1) := newWindowID s
  let (mid, pool) := match share with
    | some m => (m, s1.pool)
    | none => newMutexID s1.pool
  let s2 := { s1 with pool := pool }
  if fail then (.error .creationError, s2)
  else
    (.ok id,
      { s2 with
        objs := s2.objs ++ [⟨id, mid, true⟩],
        windowSlots := s2.windowSlots.set id true,
        windowsMap := s2.windowsMap ++ [id] })

/-- `Window::destroy` applied to the arena object at index `i`: the guard
`sharedMutexID >= mutexes.size()` returns early; otherwise, when
`glfwWindow` is non-null, the handle is unmapped, the `windowID` freed and
the shared-mutex count decreased, and `sharedMutexID` is set to the
`size_t` maximum. -/
def windowDestroy (s : WinSys) (i : Nat) : WinSys :=
  match s.objs.get? i with
  | none => s
  | some w =>
    if s.pool.counts.length ≤ w.sharedMutexID then s
    else if w.alive then
      { s with
        pool := decreaseMutexCount s.pool w.sharedMutexID,
        objs := s.objs.set i { w with alive := false, sharedMutexID := 2 ^ 64 - 1 },
        windowsMap := s.windowsMap.erase w.windowID,
        freedWindowIDs := insertSorted w.windowID s.freedWindowIDs }
    else s

/-! ## UpdateMap (`update_map.cpp`) -/

/-- `UpdateMap::groups_windows`: an association list from group id to the set
of window ids to update (list-as-set, insertion at the back). -/
abbrev UMap := List (Nat × List Nat)

/-- `unordered_set::insert`. -/
def setInsert (x : Nat) (s : List Nat) : List Nat :=
  if x ∈ s then s else s ++ [x]

/-- `groups_windows[gID].insert(wID)` of `UpdateMap::setToUpdate`: merge into
the existing entry for the key, or create it. -/
def setToUpdate (g w : Nat) : UMap → UMap
  | [] => [(g, [w])]
  | (k, s) :: rest =>
    if k = g then (k, setInsert w s) :: rest else (k, s) :: setToUpdate g w rest

/-- `unordered_map::find` on the update map. -/
def lookupSet (g : Nat) : UMap → Option (List Nat)
  | [] => none
  | (k, s) :: rest => if k = g then some s else lookupSet g rest

/-- The sentinel lookup of `UpdateMap::popGroup`: the entry keyed
`AllWindowGroupIDs` if present, else the entry keyed `AnyWindowGroupID`. -/
def sentinelSet (m : UMap) : Option (List Nat) :=
  match lookupSet AllWindowGroupIDs m with
  | some s => some s
  | none => lookupSet AnyWindowGroupID m

/-- `UpdateMap::popGroup`: on an empty map return `(NoWindowGroupID, {})`;
otherwise, if the sentinel-keyed entry exists and contains `AllWindowIDs`,
return the synthetic subsuming entry `(AllWindowGroupIDs, {AllWindowIDs})`
and clear the whole map; otherwise remove and return the begin() entry
(the head in this embedding — the C++ `unordered_map` order is arbitrary). -/
def popGroup (m : UMap) : (Nat × List Nat) × UMap :=
  match m with
  | [] => ((NoWindowGroupID, []), [])
  | (k, s) :: rest =>
    match sentinelSet ((k, s) :: rest) with
    | some t =>
      if AllWindowIDs ∈ t then ((AllWindowGroupIDs, [AllWindowIDs]), [])
      else ((k, s), rest)
    | none => ((k, s), rest)

/-- Membership of window `w` in the entry keyed `g`. -/
def inUMap (g w : Nat) (m : UMap) : Prop :=
  ∃ s, lookupSet g m = some s ∧ w ∈ s

instance (g w : Nat) (m : UMap) : Decidable (inUMap g w m) :=
  match h : lookupSet g m with
  | none => isFalse (by simp [inUMap, h])
  | some s => decidable_of_iff (w ∈ s) (by simp [inUMap, h])

/-! ## Group redraw pass (`WindowGroup::updateWindows`) -/

/-- `WindowGroup::updateWindows` as a pure pass: inputs are the group's
`doPoll` flag, its `attachedWindows`, its `windowsToUpdate` (pending) set
and the global update map; outputs are the list of windows redrawn (each:
context made current, drawn, buffers swapped, context released), the
cleared pending set, and the update map after the
`UpdateMap::notify(AnyWindowGroupID, id)` forwarding of pending windows
that are no longer attached. -/
def updateWindows (doPoll : Bool) (attached pending : List Nat) (m : UMap) :
    List Nat × List Nat × UMap :=
  if doPoll = true ∨ WholeGroupWindowIDs ∈ pending ∨ AllWindowIDs ∈ pending then
    (attached, [], m)
  else
    (pending.filter (fun id => id ∈ attached), [],
      (pending.filter (fun id => id ∉ attached)).foldl
        (fun mm id => setToUpdate AnyWindowGroupID id mm) m)

/-! ## Group loop control (`WindowGroup::runLoopConcurrently`) -/

/-- The concurrency-control fields of a `WindowGroup`: whether `threadOfLoop`
is joinable (a worker thread object is held), the `doLoop` flag, and
whether `std::terminate` has been called (assigning a new `std::thread`
onto a joinable `std::thread` calls `std::terminate` by the C++ rules). -/
structure LoopCtl where
  threadJoinable : Bool
  doLoop : Bool
  terminated : Bool
deriving Repr, DecidableEq

/-- A freshly constructed group: `doLoop(false)` and a default-constructed
(non-joinable) `threadOfLoop`. -/
def LoopCtl.fresh : LoopCtl := ⟨false, false, false⟩

/-- `WindowGroup::runLoopConcurrently`, verbatim: only when `threadOfLoop`
is already joinable does it set `doLoop = true` and assign a new thread to
`threadOfLoop` (which, being joinable, makes the assignment call
`std::terminate`). When no worker exists it does nothing. -/
def runLoopConcurrently (s : LoopCtl) : LoopCtl :=
  if s.threadJoinable then ⟨true, true, true⟩ else s

/-! ## Group registry (`window_group.cpp` static state) -/

/-- One `WindowGroup` object: its id, its `attachedWindows` set, and whether
the object has been destructed yet (`live`). -/
structure GObj where
  groupID : Nat
  attached : List Nat
  live : Bool
deriving Repr, DecidableEq

/-- The static state of the group side: the arena of all constructed
`WindowGroup` objects (creation order), the `windowGroups` deque (each
slot optionally referencing an arena index), the sorted
`freedWindowGroupIDs` deque and the window→group map `windowGroupMap`. -/
structure GroupSys where
  objs : List GObj
  slots : List (Option Nat)
  freedIDs : List Nat
  wgMap : List (Nat × Nat)
deriving Repr, DecidableEq

def GroupSys.empty : GroupSys := ⟨[], [], [], []⟩

/-- Association-list store (`windowGroupMap[w] = g`). -/
def mapStore (w g : Nat) : List (Nat × Nat) → List (Nat × Nat)
  | [] => [(w, g)]
  | (k, v) :: rest =>
    if k = w then (k, g) :: rest else (k, v) :: mapStore w g rest

/-- `WindowGroup::getWindowGroup`: `windowGroupMap` lookup, `NoWindowGroupID`
when the window has no entry. -/
def getWindowGroup (mp : List (Nat × Nat)) (w : Nat) : Nat :=
  match mp with
  | [] => NoWindowGroupID
  | (k, v) :: rest => if k = w then v else getWindowGroup rest w

/-- `WindowGroup::newGroupID`: smallest freed id if any, else the next index,
resizing the `windowGroups` deque with empty slots as needed. -/
def newGroupID (s : GroupSys) : Nat × GroupSys :=
  let id := match s.freedIDs with
    | [] => s.slots.length
    | i :: _ => i
  let freed := match s.freedIDs with
    | [] => ([] : List Nat)
    | _ :: r => r
  let slots := if s.slots.length ≤ id then
      s.slots ++ List.replicate (id + 1 - s.slots.length) none
    else s.slots
  (id, { s with slots := slots, freedIDs := freed })

/-- The body of `WindowGroup::destroy` run on the arena object at `oi`:
every attached window's map entry is set to `NoWindowGroupID`, the
attached set is cleared, and the group id is inserted into the sorted
`freedWindowGroupIDs` by a plain `lower_bound` insert — with **no**
duplicate guard in the source. -/
def groupDestroyBody (s : GroupSys) (oi : Nat) : GroupSys :=
  match s.objs.get? oi with
  | none => s
  | some g =>
    { s with
      objs := s.objs.set oi { g with attached := [] },
      wgMap := g.attached.foldl (fun mp w => mapStore w NoWindowGroupID mp) s.wgMap,
      freedIDs := insertSorted g.groupID s.freedIDs }

/-- `WindowGroup::newGroup`: book an id, construct the object, store the
`shared_ptr` in `windowGroups[id]` (and return it to the caller). -/
def newGroup (s : GroupSys) : Nat × GroupSys :=
  let (id, s1) := newGroupID s
  let oi := s1.objs.length
  (oi,
    { s1 with
      objs := s1.objs ++ [⟨id, [], true⟩],
      slots := s1.slots.set id (some oi) })

/-- `WindowGroup::deleteWindowGroup`: when the slot holds a group, call its
`destroy()` explicitly, then `reset()` the `shared_ptr`. `lastRef` says
whether the registry held the last reference (the caller did not retain
the pointer returned by `newGroup`): in that case `reset()` runs
`~WindowGroup`, which calls `destroy()` a **second** time, and the object
dies. -/
def deleteWindowGroup (s : GroupSys) (id : Nat) (lastRef : Bool) : GroupSys :=
  match s.slots.getD id none with
  | none => s
  | some oi =>
    let s1 := groupDestroyBody s oi
    let s2 := if lastRef then
        let s1b := groupDestroyBody s1 oi
        match s1b.objs.get? oi with
        | none => s1b
        | some g => { s1b with objs := s1b.objs.set oi { g with live := false } }
      else s1
    { s2 with slots := s2.slots.set id none }

/-- `WindowGroup::attachWindow` on the arena object at `oi`: insert into
`attachedWindows` and point `windowGroupMap[w]` at this group. Nothing
removes the window from a previously attached group's set. -/
def attachWindow (s : GroupSys) (oi : Nat) (w : Nat) : GroupSys :=
  match s.objs.get? oi with
  | none => s
  | some g =>
    { s with
      objs := s.objs.set oi { g with attached := setInsert w g.attached },
      wgMap := mapStore w g.groupID s.wgMap }

/-- `WindowGroup::detachWindow` on the arena object at `oi`: erase from the
attached set and, if it was present, map the window to `NoWindowGroupID`. -/
def detachWindow (s : GroupSys) (oi : Nat) (w : Nat) : GroupSys :=
  match s.objs.get? oi with
  | none => s
  | some g =>
    if w ∈ g.attached then
      { s with
        objs := s.objs.set oi { g with attached := g.attached.erase w },
        wgMap := mapStore w NoWindowGroupID s.wgMap }
    else s

/-- The create/destroy/attach/detach operations of the group registry, for
stating reachability by operation sequences. `newG keep` records whether
the caller retains the returned pointer; `deleteG id` destroys through the
registry (the registry holds the last reference exactly when the caller
did not keep the pointer at creation — the flag is passed explicitly). -/
inductive GOp where
  | newG : GOp
  | deleteG : Nat → Bool → GOp
  | attach : Nat → Nat → GOp
  | detach : Nat → Nat → GOp
deriving Repr, DecidableEq

def runGOp (s : GroupSys) : GOp → GroupSys
  | .newG => (newGroup s).2
  | .deleteG id lastRef => deleteWindowGroup s id lastRef
  | .attach oi w => attachWindow s oi w
  | .detach oi w => detachWindow s oi w

def runGOps (ops : List GOp) : GroupSys :=
  ops.foldl runGOp GroupSys.empty

/-- The group ids of the currently live (constructed, not destructed)
`WindowGroup` objects. -/
def liveGroupIDs (s : GroupSys) : List Nat :=
  (s.objs.filter (·.live)).map (·.groupID)

/-! ## Ranked handler/drawable lists (`Window::bindEventHandler`,
`ObjectRank::operator<` in `utility.hpp`) -/

/-- One `(object, rank)` binding (`ObjectRank`): the object identity is a
`Nat` (pointer identity of the handler/drawable), the rank the `int` rank
(`RankType`). -/
abbrev Binding := Nat × Int

/-- `std::lower_bound` insertion into the ranked list: `ObjectRank::operator<`
compares ranks only, and `lower_bound` yields the first position whose
element's rank is not less than the new rank — so the new binding lands
**before** any existing binding of equal rank. -/
def insertRanked (b : Binding) : List Binding → List Binding
  | [] => [b]
  | x :: xs => if x.2 < b.2 then x :: insertRanked b xs else b :: x :: xs

/-- `Window::bindEventHandler` (identically `bindDrawable`): if the handler
is already bound, erase its current binding; then insert `(eh, r)` at the
`lower_bound` position. -/
def bindHandler (h : Nat) (r : Int) (l : List Binding) : List Binding :=
  insertRanked (h, r) (l.eraseP (fun b => b.1 == h))

/-- `Window::unbindEventHandler`: remove the handler's binding if present. -/
def unbindHandler (h : Nat) (l : List Binding) : List Binding :=
  l.eraseP (fun b => b.1 == h)

/-- A bind/unbind operation on one window's ranked list. -/
inductive HOp where
  | bind : Nat → Int → HOp
  | unbind : Nat → HOp
deriving Repr, DecidableEq

def runHOp (l : List Binding) : HOp → List Binding
  | .bind h r => bindHandler h r l
  | .unbind h => unbindHandler h l

/-- The ranked list produced by a sequence of bind/unbind operations starting
from the empty list of a fresh `Window`. -/
def applyHOps (ops : List HOp) : List Binding :=
  ops.foldl runHOp []

/-! ## Event callbacks (`WindowManager::*Callback`) -/

/-- The state the event callbacks act on: the live windows (those with a
`Window` object in the registry), the existing group ids, the set of group
ids whose loop `isRunningConcurrently()`, each group's `windowsToUpdate`
set (association list by group id), the window→group map, the update map,
and the trace of windows whose handler chain was invoked
(`handleEvent`). -/
structure DispatchSt where
  liveWindows : List Nat
  groupIDs : List Nat
  concurrent : List Nat
  pending : List (Nat × List Nat)
  wgMap : List (Nat × Nat)
  updateMap : UMap
  dispatched : List Nat
deriving Repr, DecidableEq

/-- Insert `w` into the pending set of group `g` (`setWindowToUpdate`). -/
def pendInsert (g w : Nat) : List (Nat × List Nat) → List (Nat × List Nat)
  | [] => [(g, [w])]
  | (k, s) :: rest =>
    if k = g then (k, setInsert w s) :: rest else (k, s) :: pendInsert g w rest

/-- The common body of every `WindowManager` event callback **except**
`windowCloseCallback` (the position, size, refresh, focus, maximize,
iconify, framebuffer-size, content-scale, mouse-button, cursor-position,
cursor-enter, scroll, key, char, char-mod and drop callbacks all share
this code): discard events for unregistered windows (`wID > LastWindowID`)
or windows with no `Window` object; otherwise dispatch to the window's
handlers, then — if the window's group exists and is running concurrently
— mark the window pending in that group (and wake the worker), else post
`(gID, wID)` to the update map. -/
def otherEventCallback (w : Nat) (st : DispatchSt) : DispatchSt :=
  if LastWindowID < w then st
  else if w ∉ st.liveWindows then st
  else
    let st1 := { st with dispatched := st.dispatched ++ [w] }
    let gID := getWindowGroup st.wgMap w
    if gID ∈ st.groupIDs ∧ gID ∈ st.concurrent then
      { st1 with pending := pendInsert gID w st1.pending }
    else
      { st1 with updateMap := setToUpdate gID w st1.updateMap }

/-- `WindowManager::windowCloseCallback`: same lookup and dispatch, but no
redraw request at all — the source ends after `handleEvent` with the
comment "do not update the window, as any handled here may have
deallocated any resources". -/
def windowCloseCallback (w : Nat) (st : DispatchSt) : DispatchSt :=
  if LastWindowID < w then st
  else if w ∉ st.liveWindows then st
  else { st with dispatched := st.dispatched ++ [w] }

/-! ## The owning-thread main loop (`WindowManager::mainLoop`) -/

/-- One group as seen by the main loop: its id, attached set and pending
(`windowsToUpdate`) set. Workers are modelled synchronously: `process()`
performs the redraw pass (the concurrent case differs only in which
thread runs the identical `updateWindows` body). -/
structure MLGroup where
  gid : Nat
  attached : List Nat
  pending : List Nat
deriving Repr, DecidableEq

/-- The state the main loop's update-draining phase acts on. -/
structure MLState where
  groups : List MLGroup
  allWindows : List Nat
  wgMap : List (Nat × Nat)
  updateMap : UMap
deriving Repr, DecidableEq

/-- `WindowGroup::getGroup` succeeds for `gid`. -/
def groupExistsML (st : MLState) (gid : Nat) : Bool :=
  st.groups.any (fun g => g.gid == gid)

/-- `g->setWindowToUpdate(w)` on the group with id `gid`. -/
def setWindowToUpdateML (gid w : Nat) (st : MLState) : MLState :=
  { st with
    groups := st.groups.map (fun g =>
      if g.gid = gid then { g with pending := setInsert w g.pending } else g) }

/-- `g->process()` on the group with id `gid`, in the synchronous (no worker)
case: run `updateWindows` (the group's `doPoll` is false in wait mode; the
poll case is covered by the markers argument where relevant), returning
the drawn windows. -/
def processML (gid : Nat) (st : MLState) : List Nat × MLState :=
  match st.groups.find? (fun g => g.gid == gid) with
  | none => ([], st)
  | some g =>
    let (drawn, pend, m') := updateWindows false g.attached g.pending st.updateMap
    (drawn,
      { st with
        groups := st.groups.map (fun h =>
          if h.gid = gid then { h with pending := pend } else h),
        updateMap := m' })

/-- `WindowGroup::getAllUngroupedWindowIDs`: all live window ids minus every
**key** of `windowGroupMap` (note: a window detached back to
`NoWindowGroupID` keeps its key and is therefore excluded). -/
def ungroupedWindows (st : MLState) : List Nat :=
  st.allWindows.filter (fun w => ¬ st.wgMap.any (fun kv => kv.1 == w))

/-- The body of the main loop's drain for one popped entry, following
`mainLoop`: an `AllWindowGroupIDs` entry marks every existing group with
the `WholeGroupWindowIDs` marker and processes it, then draws every
ungrouped window directly; a real-group entry marks the requested windows
in that group and processes it; an entry whose group no longer exists
redirects each window to its current group (marking and later processing
it) or draws it directly if it is ungrouped but live. Returns the windows
drawn by this resolution. -/
def resolveEntry (gID : Nat) (wIDs : List Nat) (st : MLState) :
    List Nat × MLState :=
  if gID = AllWindowGroupIDs then
    let (d1, gs, m) := st.groups.foldl
      (fun (acc : List Nat × List MLGroup × UMap) g =>
        let pend := setInsert WholeGroupWindowIDs g.pending
        let (drawn, pend2, m') := updateWindows false g.attached pend acc.2.2
        (acc.1 ++ drawn, acc.2.1 ++ [{ g with pending := pend2 }], m'))
      ([], [], st.updateMap)
    let st1 := { st with groups := gs, updateMap := m }
    (d1 ++ ungroupedWindows st1, st1)
  else if groupExistsML st gID then
    let st1 := wIDs.foldl (fun s id => setWindowToUpdateML gID id s) st
    processML gID st1
  else
    let (d, gset, st1) := wIDs.foldl
      (fun (acc : List Nat × List Nat × MLState) id =>
        let (drawn, gs, s) := acc
        let gid := getWindowGroup s.wgMap id
        if groupExistsML s gid then
          (drawn, setInsert gid gs, setWindowToUpdateML gid id s)
        else if id ∈ s.allWindows then (drawn ++ [id], gs, s)
        else (drawn, gs, s))
      ([], [], st)
    let (d2, st2) := gset.foldl
      (fun (acc : List Nat × MLState) gid =>
        let (dd, s') := processML gid acc.2
        (acc.1 ++ dd, s'))
      ([], st1)
    (d ++ d2, st2)

/-- The main loop's `while (!UpdateMap::empty())` drain, with explicit fuel
(forwarding by `updateWindows` can re-enqueue entries, so the C++ loop has
no structural termination measure). -/
def drainFuel : Nat → MLState → List Nat × MLState
  | 0, st => ([], st)
  | n + 1, st =>
    if st.updateMap.isEmpty then ([], st)
    else
      let ((g, ws), m') := popGroup st.updateMap
      let (d, st') := resolveEntry g ws { st with updateMap := m' }
      let (d2, st'') := drainFuel n st'
      (d ++ d2, st'')

/-- The `waitTimeout == 0.0` branch of the event-management phase of
`mainLoop`: `glfwPollEvents()` (external) followed by re-seeding
`UpdateMap::setToUpdate(AllWindowGroupIDs, AllWindowIDs)`. -/
def pollEventsPhase (st : MLState) : MLState :=
  { st with updateMap := setToUpdate AllWindowGroupIDs AllWindowIDs st.updateMap }

/-! ## Helper lemmas -/

theorem mem_setInsert_self (x : Nat) (s : List Nat) : x ∈ setInsert x s := by
  unfold setInsert
  by_cases h : x ∈ s <;> simp [h]

theorem mem_setInsert_of_mem {y : Nat} (x : Nat) {s : List Nat} (h : y ∈ s) :
    y ∈ setInsert x s := by
  unfold setInsert
  by_cases hx : x ∈ s <;> simp [hx, h]

theorem inUMap_setToUpdate_self (g w : Nat) (m : UMap) :
    inUMap g w (setToUpdate g w m) := by
  induction m with
  | nil => exact ⟨[w], by simp [setToUpdate, lookupSet], by simp⟩
  | cons e rest ih =>
    obtain ⟨k, s⟩ := e
    by_cases hk : k = g
    · subst hk
      exact ⟨setInsert w s, by simp [setToUpdate, lookupSet], mem_setInsert_self w s⟩
    · obtain ⟨t, ht, hw⟩ := ih
      exact ⟨t, by simp [setToUpdate, lookupSet, hk, ht], hw⟩

theorem inUMap_setToUpdate_mono {g w : Nat} (g2 w2 : Nat) :
    ∀ {m : UMap}, inUMap g w m → inUMap g w (setToUpdate g2 w2 m) := by
  intro m
  induction m with
  | nil =>
    intro h
    obtain ⟨s, hs, _⟩ := h
    simp [lookupSet] at hs
  | cons e rest ih =>
    intro h
    obtain ⟨k, s⟩ := e
    obtain ⟨t, ht, hw⟩ := h
    by_cases hk2 : k = g2
    · subst hk2
      by_cases hk : k = g
      · subst hk
        have hts : s = t := by simpa [lookupSet] using ht
        subst hts
        exact ⟨setInsert w2 s, by simp [setToUpdate, lookupSet],
          mem_setInsert_of_mem w2 hw⟩
      · have ht2 : lookupSet g rest = some t := by simpa [lookupSet, hk] using ht
        exact ⟨t, by simp [setToUpdate, lookupSet, hk, ht2], hw⟩
    · by_cases hk : k = g
      · subst hk
        have hts : s = t := by simpa [lookupSet] using ht
        subst hts
        exact ⟨s, by simp [setToUpdate, lookupSet, hk2], hw⟩
      · have ht2 : lookupSet g rest = some t := by simpa [lookupSet, hk] using ht
        obtain ⟨u, hu, hwu⟩ := ih ⟨t, ht2, hw⟩
        exact ⟨u, by simp [setToUpdate, lookupSet, hk2, hk, hu], hwu⟩

theorem inUMap_foldl_mono (g w g2 : Nat) (L : List Nat) :
    ∀ {m : UMap}, inUMap g w m →
      inUMap g w (L.foldl (fun mm id => setToUpdate g2 id mm) m) := by
  induction L with
  | nil => intro m h; exact h
  | cons a L ih => intro m h; exact ih (inUMap_setToUpdate_mono g2 a h)

theorem inUMap_foldl_self (g : Nat) (L : List Nat) :
    ∀ (m : UMap) (w : Nat), w ∈ L →
      inUMap g w (L.foldl (fun mm id => setToUpdate g id mm) m) := by
  induction L with
  | nil => intro m w h; simp at h
  | cons a L ih =>
    intro m w h
    rcases List.mem_cons.mp h with h1 | h2
    · subst h1
      exact inUMap_foldl_mono g w g L (inUMap_setToUpdate_self g w m)
    · exact ih _ w h2

theorem lookupSet_ne_nil {g : Nat} {m : UMap} {s : List Nat}
    (h : lookupSet g m = some s) : m ≠ [] := by
  intro hm
  subst hm
  simp [lookupSet] at h

theorem sentinelSet_of_lookupAll {m : UMap} {s : List Nat}
    (h : lookupSet AllWindowGroupIDs m = some s) : sentinelSet m = some s := by
  simp [sentinelSet, h]

theorem popGroup_sentinel {m : UMap} {s : List Nat}
    (hs : sentinelSet m = some s) (hw : AllWindowIDs ∈ s) :
    popGroup m = ((AllWindowGroupIDs, [AllWindowIDs]), []) := by
  match m with
  | [] =>
    simp [sentinelSet, lookupSet] at hs
  | (k, t) :: rest =>
    simp [popGroup, hs, hw]

theorem popGroup_head {k : Nat} {s : List Nat} {rest : UMap}
    (h : ∀ t, sentinelSet ((k, s) :: rest) = some t → AllWindowIDs ∉ t) :
    popGroup ((k, s) :: rest) = ((k, s), rest) := by
  rcases hs : sentinelSet ((k, s) :: rest) with _ | t
  · simp [popGroup, hs]
  · simp [popGroup, hs, h t hs]

/-! ## Claim theorems -/

/-- Claim C1. For windows A and B with B created sharing A's context, both
resolve to the same shared-mutex slot — but the constructor copies
`share->sharedMutexID` **without** incrementing the slot's user count
(only the non-sharing `newMutexID()` branch increments), while `destroy`
always decrements. On the trace: create A (slot 0, count 1), create B
sharing A (count still 1), destroy A — the count drops to 0 and index 0
enters the free list while B is still alive and pointing at slot 0,
contradicting the claim's "reference count ≥ 1" and the source's own
description of `MutexData::count` as the mutex's number of users. -/
theorem shared_slot_count_zero_while_sharer_alive :
    ((newWindow false (some 0) (newWindow false none WinSys.empty).2).2.objs.map
        (·.sharedMutexID)) = [0, 0] ∧
    (windowDestroy (newWindow false (some 0)
        (newWindow false none WinSys.empty).2).2 0).objs.get? 1
      = some ⟨1, 0, true⟩ ∧
    (windowDestroy (newWindow false (some 0)
        (newWindow false none WinSys.empty).2).2 0).pool.counts = [0] ∧
    (windowDestroy (newWindow false (some 0)
        (newWindow false none WinSys.empty).2).2 0).pool.freed = [0] := by
  decide

/-- Claim C2. Attaching window 7 to group 0 and then to group 1 sets
`windowGroupMap[7] = 1` (so `getWindowGroup` reports group 1), but
`WindowGroup::attachWindow` never removes the window from the previous
group's `attachedWindows` set, so 7 is still in group 0's attached set —
contradicting the claim and the source's own note that "A Window can not
belong to more than one group at the same time". -/
theorem attach_leaves_window_in_previous_group :
    getWindowGroup (runGOps [.newG, .newG, .attach 0 7, .attach 1 7]).wgMap 7 = 1 ∧
    7 ∈ ((runGOps [.newG, .newG, .attach 0 7, .attach 1 7]).objs.getD 0
        ⟨0, [], false⟩).attached := by
  decide

/-- Claim C3. `WindowGroup::runLoopConcurrently` guards the spawn with
`if (threadOfLoop.joinable())` — the condition is inverted with respect to
its own documentation ("starts the execution of this group loop in another
thread, if not yet started"). On a fresh group (default-constructed,
non-joinable `threadOfLoop`) the call is a no-op and no worker is ever
started; conversely, when a worker is already joinable, the call assigns a
new `std::thread` over the joinable one, which calls `std::terminate` —
anything but a no-op. -/
theorem runLoopConcurrently_never_starts_fresh_worker :
    runLoopConcurrently LoopCtl.fresh = LoopCtl.fresh ∧
    (runLoopConcurrently ⟨true, true, false⟩).terminated = true := by
  decide

/-- Claim C6. `WindowGroup::deleteWindowGroup` calls `destroy()` explicitly
and then `reset()` runs `~WindowGroup`, which calls `destroy()` a second
time; `destroy()` inserts the group id into `freedWindowGroupIDs` by a
plain `lower_bound` insert with no duplicate guard (unlike
`decreaseMutexCount`, which has one). After `newGroup; deleteWindowGroup 0;
newGroup; newGroup` the freed list held id 0 twice, so both of the last
two (simultaneously live) groups were allocated id 0 — violating the
claimed uniqueness invariant. -/
theorem deleted_group_id_allocated_twice :
    liveGroupIDs (runGOps [.newG, .deleteG 0 true, .newG, .newG]) = [0, 0] ∧
    ¬ (liveGroupIDs (runGOps [.newG, .deleteG 0 true, .newG, .newG])).Nodup := by
  decide

theorem sum_set_succ : ∀ (l : List Nat) (i : Nat), i < l.length →
    (l.set i (l.getD i 0 + 1)).sum = l.sum + 1 := by
  intro l
  induction l with
  | nil => intro i h; simp at h
  | cons x xs ih =>
    intro i h
    cases i with
    | zero =>
      simp only [List.getD_cons_zero, List.set_cons_zero, List.sum_cons]
      omega
    | succ i =>
      have hi : i < xs.length := by simpa using h
      simp only [List.getD_cons_succ, List.set_cons_succ, List.sum_cons]
      rw [ih i hi]
      omega

theorem padTo_sum (l : List Nat) (n : Nat) : (padTo l n).sum = l.sum := by
  simp [padTo]

theorem padTo_length (l : List Nat) (n : Nat) :
    (padTo l n).length = max l.length n := by
  simp [padTo]
  omega

theorem newMutexID_counts_sum (p : MutexPool) :
    ((newMutexID p).2).counts.sum = p.counts.sum + 1 := by
  unfold newMutexID
  cases hf : p.freed with
  | nil =>
    simp only [le_refl, if_pos]
    rw [sum_set_succ, padTo_sum]
    rw [padTo_length]
    omega
  | cons i r =>
    by_cases hlen : p.counts.length ≤ i
    · simp only [hlen, if_pos]
      rw [sum_set_succ, padTo_sum]
      rw [padTo_length]
      omega
    · simp only [hlen, if_neg, if_false]
      rw [sum_set_succ]
      omega

/-- Claim C4 (counterexample). Creating a window from the empty registry with
the collaborator failing returns the creation error but does **not** leave
the registry unchanged: the mutex pool now holds a slot with count 1, and
the next window-ID allocation returns 1 — id 0 was consumed by the failed
creation and never freed. The claimed rollback would require the resulting
state to equal the initial one. -/
theorem creation_failure_rollback_refuted :
    (newWindow true none WinSys.empty).1 = Except.error CreationError.creationError ∧
    (newWindow true none WinSys.empty).2 ≠ WinSys.empty ∧
    (newWindow true none WinSys.empty).2.pool.counts = [1] ∧
    (newWindowID (newWindow true none WinSys.empty).2).1 = 1 := by
  refine ⟨rfl, by decide, by decide, by decide⟩

/-- Claim C4 (amended). When the window-system collaborator fails, creation
fails observably with the creation error and no window is registered (the
object arena and the native-handle map are unchanged) — but the allocated
window ID and the acquired mutex slot are **not** rolled back: for a
non-shared creation the pool's total user count stays incremented, and the
consumed window ID is not returned to the free list. -/
theorem creation_failure_keeps_consumed_state :
    ∀ (s : WinSys) (share : Option Nat),
      (newWindow true share s).1 = Except.error CreationError.creationError ∧
      (newWindow true share s).2.objs = s.objs ∧
      (newWindow true share s).2.windowsMap = s.windowsMap ∧
      (share = none →
        (newWindow true share s).2.pool.counts.sum = s.pool.counts.sum + 1) ∧
      (s.freedWindowIDs.Nodup →
        (newWindowID s).1 ∉ (newWindow true share s).2.freedWindowIDs) := by
  intro s share
  refine ⟨rfl, rfl, rfl, ?_, ?_⟩
  · intro hs
    subst hs
    show ((newMutexID s.pool).2).counts.sum = s.pool.counts.sum + 1
    exact newMutexID_counts_sum s.pool
  · intro hnd
    show (newWindowID s).1 ∉ (newWindowID s).2.freedWindowIDs
    unfold newWindowID
    cases hf : s.freedWindowIDs with
    | nil => simp
    | cons i r =>
      simp only []
      rw [hf] at hnd
      simpa using (List.nodup_cons.mp hnd).1

/-- Witness for the amended C4 theorem at the empty registry. -/
theorem creation_failure_keeps_consumed_state_witness :
    (newWindow true none WinSys.empty).1 = Except.error CreationError.creationError ∧
    (newWindow true none WinSys.empty).2.pool.counts.sum
        = WinSys.empty.pool.counts.sum + 1 ∧
    (newWindowID WinSys.empty).1 ∉ (newWindow true none WinSys.empty).2.freedWindowIDs := by
  have h := creation_failure_keeps_consumed_state WinSys.empty none
  exact ⟨h.1, h.2.2.2.1 rfl, h.2.2.2.2 (by decide)⟩

/-- Claim C5. `UpdateMap::popGroup`: popping the empty queue yields
`(NoWindowGroupID, {})`; when the sentinel-keyed entry (the
`AllWindowGroupIDs` entry, or the `AnyWindowGroupID` entry if the former
is absent) contains `AllWindowIDs`, the whole queue is cleared and the
single subsuming entry `(AllWindowGroupIDs, {AllWindowIDs})` is returned;
otherwise one remaining entry is removed and returned (the begin() entry —
arbitrary for the C++ unordered map). In particular, posting
`(AnyWindowGroupID, AllWindowIDs)` and `(3, {5})` in either order and
draining yields exactly the one redraw-everything entry. -/
theorem updateMap_pop_spec :
    (popGroup [] = ((NoWindowGroupID, []), [])) ∧
    (∀ (m : UMap) (s : List Nat), sentinelSet m = some s → AllWindowIDs ∈ s →
      popGroup m = ((AllWindowGroupIDs, [AllWindowIDs]), [])) ∧
    (∀ m : UMap, m ≠ [] → (∀ s, sentinelSet m = some s → AllWindowIDs ∉ s) →
      ∃ e, e ∈ m ∧ popGroup m = (e, m.erase e)) ∧
    (popGroup (setToUpdate 3 5 (setToUpdate AnyWindowGroupID AllWindowIDs []))
      = ((AllWindowGroupIDs, [AllWindowIDs]), [])) ∧
    (popGroup (setToUpdate AnyWindowGroupID AllWindowIDs (setToUpdate 3 5 []))
      = ((AllWindowGroupIDs, [AllWindowIDs]), [])) := by
  refine ⟨rfl, ?_, ?_, by decide, by decide⟩
  · intro m s hs hw
    exact popGroup_sentinel hs hw
  · intro m hm hno
    match m with
    | (k, s) :: rest =>
      refine ⟨(k, s), List.mem_cons_self _ _, ?_⟩
      rw [popGroup_head (fun t ht => hno t ht), List.erase_cons_head]

/-- Witness for the C5 theorem: the subsuming-entry branch applied at a
concrete one-entry queue, and the arbitrary-pop branch at a queue with a
single real-group entry. -/
theorem updateMap_pop_spec_witness :
    popGroup [(AllWindowGroupIDs, [AllWindowIDs])]
      = ((AllWindowGroupIDs, [AllWindowIDs]), []) ∧
    (∃ e, e ∈ [((3 : Nat), [(5 : Nat)])] ∧
      popGroup [((3 : Nat), [(5 : Nat)])] = (e, [((3 : Nat), [(5 : Nat)])].erase e)) := by
  have h := updateMap_pop_spec
  exact ⟨h.2.1 [(AllWindowGroupIDs, [AllWindowIDs])] [AllWindowIDs] (by decide) (by decide),
    h.2.2.1 [((3 : Nat), [(5 : Nat)])] (by decide) (by decide)⟩

/-- Claim C7. `WindowGroup::updateWindows`: if `doPoll` is set, or the
`WholeGroupWindowIDs` or `AllWindowIDs` marker is in the pending set,
every attached window is redrawn and the update map is untouched;
otherwise exactly the pending windows that are still attached are redrawn
and each pending window that is no longer attached is forwarded to the
update queue under `AnyWindowGroupID`; in every case the pending set is
cleared by the pass. -/
theorem group_redraw_pass_spec :
    ∀ (doPoll : Bool) (attached pending : List Nat) (m : UMap),
      (updateWindows doPoll attached pending m).2.1 = [] ∧
      ((doPoll = true ∨ WholeGroupWindowIDs ∈ pending ∨ AllWindowIDs ∈ pending) →
        (updateWindows doPoll attached pending m).1 = attached ∧
        (updateWindows doPoll attached pending m).2.2 = m) ∧
      (doPoll = false → WholeGroupWindowIDs ∉ pending → AllWindowIDs ∉ pending →
        (∀ id, id ∈ (updateWindows doPoll attached pending m).1 ↔
            id ∈ pending ∧ id ∈ attached) ∧
        (∀ id, id ∈ pending → id ∉ attached →
          inUMap AnyWindowGroupID id (updateWindows doPoll attached pending m).2.2)) := by
  intro doPoll attached pending m
  by_cases hc : doPoll = true ∨ WholeGroupWindowIDs ∈ pending ∨ AllWindowIDs ∈ pending
  · refine ⟨by simp [updateWindows, hc], fun _ => ⟨by simp [updateWindows, hc],
      by simp [updateWindows, hc]⟩, ?_⟩
    intro h1 h2 h3
    exfalso
    rcases hc with h | h | h
    · rw [h1] at h; exact Bool.false_ne_true h
    · exact h2 h
    · exact h3 h
  · refine ⟨by simp [updateWindows, hc], fun h => absurd h hc, fun _ _ _ => ⟨?_, ?_⟩⟩
    · intro id
      simp [updateWindows, hc, List.mem_filter]
    · intro id hid hna
      simp only [updateWindows, if_neg hc]
      exact inUMap_foldl_self _ _ _ _ (by simp [List.mem_filter, hid, hna])

/-- Witness for the C7 theorem: with `pending = {2, 3}` and
`attached = {1, 2}` in wait mode, window 3 (pending but not attached) is
forwarded to the update queue under `AnyWindowGroupID`, and window 2 is
redrawn exactly when it is both pending and attached. -/
theorem group_redraw_pass_spec_witness :
    inUMap AnyWindowGroupID 3 (updateWindows false [1, 2] [2, 3] []).2.2 ∧
    (2 ∈ (updateWindows false [1, 2] [2, 3] []).1 ↔ (2 ∈ [2, 3] ∧ 2 ∈ [1, 2])) := by
  have h := group_redraw_pass_spec false [1, 2] [2, 3] []
  have h3 := h.2.2 rfl (by decide) (by decide)
  exact ⟨h3.2 3 (by decide) (by decide), h3.1 2⟩

/-! ## Ranked-list lemmas -/

theorem insertRanked_eq (b : Binding) :
    ∀ l : List Binding,
      insertRanked b l
        = l.takeWhile (fun x => decide (x.2 < b.2)) ++
            b :: l.dropWhile (fun x => decide (x.2 < b.2)) := by
  intro l
  induction l with
  | nil => rfl
  | cons x xs ih =>
    unfold insertRanked
    by_cases hlt : x.2 < b.2
    · rw [if_pos hlt, ih]
      simp [List.takeWhile_cons, List.dropWhile_cons, hlt]
    · rw [if_neg hlt]
      simp [List.takeWhile_cons, List.dropWhile_cons, hlt]

theorem mem_insertRanked {a b : Binding} : ∀ {l : List Binding},
    a ∈ insertRanked b l ↔ a = b ∨ a ∈ l := by
  intro l
  induction l with
  | nil => simp [insertRanked]
  | cons x xs ih =>
    unfold insertRanked
    by_cases hlt : x.2 < b.2
    · rw [if_pos hlt]
      simp only [List.mem_cons, ih]
      tauto
    · rw [if_neg hlt]
      simp only [List.mem_cons]

theorem pairwise_insertRanked (b : Binding) :
    ∀ {l : List Binding}, List.Pairwise (fun a c : Binding => a.2 ≤ c.2) l →
      List.Pairwise (fun a c : Binding => a.2 ≤ c.2) (insertRanked b l) := by
  intro l
  induction l with
  | nil => intro _; simp [insertRanked]
  | cons x xs ih =>
    intro h
    rw [List.pairwise_cons] at h
    obtain ⟨hx, hxs⟩ := h
    unfold insertRanked
    by_cases hlt : x.2 < b.2
    · rw [if_pos hlt, List.pairwise_cons]
      constructor
      · intro y hy
        rcases mem_insertRanked.mp hy with rfl | hy2
        · exact le_of_lt hlt
        · exact hx y hy2
      · exact ih hxs
    · rw [if_neg hlt, List.pairwise_cons]
      constructor
      · intro y hy
        rcases List.mem_cons.mp hy with rfl | hy2
        · exact le_of_not_lt hlt
        · exact le_trans (le_of_not_lt hlt) (hx y hy2)
      · exact List.pairwise_cons.mpr ⟨hx, hxs⟩

theorem keys_nodup_insertRanked {b : Binding} {l : List Binding}
    (hb : b.1 ∉ l.map Prod.fst) (hn : (l.map Prod.fst).Nodup) :
    ((insertRanked b l).map Prod.fst).Nodup := by
  rw [insertRanked_eq, List.map_append, List.map_cons, List.nodup_middle,
    ← List.map_append, List.takeWhile_append_dropWhile]
  exact List.nodup_cons.mpr ⟨hb, hn⟩

theorem pairwise_eraseP {l : List Binding} {p : Binding → Bool}
    (h : List.Pairwise (fun a c : Binding => a.2 ≤ c.2) l) :
    List.Pairwise (fun a c : Binding => a.2 ≤ c.2) (l.eraseP p) :=
  h.sublist (List.eraseP_sublist l)

theorem keys_nodup_eraseP {l : List Binding} {p : Binding → Bool}
    (hn : (l.map Prod.fst).Nodup) : ((l.eraseP p).map Prod.fst).Nodup :=
  hn.sublist ((List.eraseP_sublist l).map Prod.fst)

theorem key_not_mem_eraseP {h : Nat} : ∀ {l : List Binding},
    (l.map Prod.fst).Nodup →
      h ∉ ((l.eraseP (fun b => b.1 == h)).map Prod.fst) := by
  intro l
  induction l with
  | nil => intro _; simp
  | cons x xs ih =>
    intro hn
    rw [List.map_cons, List.nodup_cons] at hn
    by_cases hx : x.1 = h
    · simp only [List.eraseP_cons, hx, beq_self_eq_true, cond_true]
      rw [← hx]
      exact hn.1
    · have hbx : (x.1 == h) = false := by simpa using hx
      simp only [List.eraseP_cons, hbx, cond_false, List.map_cons]
      intro hmem
      rcases List.mem_cons.mp hmem with h1 | h2
      · exact hx h1.symm
      · exact ih hn.2 h2

/-- Claim C8 (counterexample). Binding handler 1 then handler 2, both with
rank 5, yields the list `[(2, 5), (1, 5)]`: `std::lower_bound` (whose
comparison, `ObjectRank::operator<`, looks only at the rank) returns the
first position whose rank is not less than the new rank, so the newer
equal-rank binding is inserted **before** the older one — the claimed
insertion-order list `[(1, 5), (2, 5)]` is not what the code produces. -/
theorem equal_rank_insertion_order_refuted :
    applyHOps [.bind 1 5, .bind 2 5] = [(2, 5), (1, 5)] ∧
    applyHOps [.bind 1 5, .bind 2 5] ≠ [(1, 5), (2, 5)] := by
  decide

/-- Claim C8 (amended). After every sequence of bind/unbind operations the
ranked list is sorted ascending by rank and each handler appears at most
once; rebinding erases the handler's old binding and re-inserts it at the
position given by its new rank — with a binding of equal rank placed
**before** the already-present equal-rank bindings (newest first, the
reverse of insertion order): `bindHandler` always produces
"strictly-smaller ranks, then the new binding, then the rest". -/
theorem ranked_list_sorted_nodup_newest_first :
    ∀ ops : List HOp,
      List.Pairwise (fun a c : Binding => a.2 ≤ c.2) (applyHOps ops) ∧
      ((applyHOps ops).map Prod.fst).Nodup ∧
      (∀ (l : List Binding) (h : Nat) (r : Int),
        bindHandler h r l
          = (l.eraseP (fun b => b.1 == h)).takeWhile (fun b => decide (b.2 < r)) ++
              (h, r) :: (l.eraseP (fun b => b.1 == h)).dropWhile
                (fun b => decide (b.2 < r))) := by
  have step : ∀ (l : List Binding) (op : HOp),
      (List.Pairwise (fun a c : Binding => a.2 ≤ c.2) l ∧ (l.map Prod.fst).Nodup) →
      (List.Pairwise (fun a c : Binding => a.2 ≤ c.2) (runHOp l op) ∧
        ((runHOp l op).map Prod.fst).Nodup) := by
    intro l op hl
    obtain ⟨hp, hn⟩ := hl
    cases op with
    | bind hh r =>
      exact ⟨pairwise_insertRanked _ (pairwise_eraseP hp),
        keys_nodup_insertRanked (key_not_mem_eraseP hn) (keys_nodup_eraseP hn)⟩
    | unbind hh => exact ⟨pairwise_eraseP hp, keys_nodup_eraseP hn⟩
  have fold : ∀ (ops : List HOp) (l : List Binding),
      (List.Pairwise (fun a c : Binding => a.2 ≤ c.2) l ∧ (l.map Prod.fst).Nodup) →
      (List.Pairwise (fun a c : Binding => a.2 ≤ c.2) (ops.foldl runHOp l) ∧
        ((ops.foldl runHOp l).map Prod.fst).Nodup) := by
    intro ops
    induction ops with
    | nil => intro l hl; exact hl
    | cons op ops ih => intro l hl; exact ih _ (step l op hl)
  intro ops
  obtain ⟨h1, h2⟩ := fold ops [] ⟨List.Pairwise.nil, List.nodup_nil⟩
  exact ⟨h1, h2, fun l h r => insertRanked_eq (h, r) _⟩

/-! ## Main-loop lemmas -/

theorem updateWindows_marker {attached pending : List Nat} {m : UMap}
    (h : WholeGroupWindowIDs ∈ pending) :
    updateWindows false attached pending m = (attached, [], m) := by
  unfold updateWindows
  rw [if_pos (Or.inr (Or.inl h))]

theorem allPass_foldl :
    ∀ (gs : List MLGroup) (d0 : List Nat) (gs0 : List MLGroup) (m : UMap),
      gs.foldl
        (fun (acc : List Nat × List MLGroup × UMap) g =>
          let pend := setInsert WholeGroupWindowIDs g.pending
          let (drawn, pend2, m') := updateWindows false g.attached pend acc.2.2
          (acc.1 ++ drawn, acc.2.1 ++ [{ g with pending := pend2 }], m'))
        (d0, gs0, m)
      = (d0 ++ (gs.map (·.attached)).flatten,
         gs0 ++ gs.map (fun g => { g with pending := [] }), m) := by
  intro gs
  induction gs with
  | nil => intro d0 gs0 m; simp
  | cons g gs ih =>
    intro d0 gs0 m
    simp only [List.foldl_cons,
      updateWindows_marker (mem_setInsert_self WholeGroupWindowIDs g.pending)]
    rw [ih]
    simp

theorem resolveEntry_all (st : MLState) :
    resolveEntry AllWindowGroupIDs [AllWindowIDs] st
      = ((st.groups.map (·.attached)).flatten ++ ungroupedWindows st,
         { st with groups := st.groups.map (fun g => { g with pending := [] }) }) := by
  unfold resolveEntry
  rw [if_pos rfl, allPass_foldl]
  simp [ungroupedWindows]

theorem drainFuel_of_empty (n : Nat) (st : MLState) (h : st.updateMap = []) :
    drainFuel n st = ([], st) := by
  cases n with
  | zero => rfl
  | succ n => simp [drainFuel, h]

theorem drainFuel_succ {st : MLState} {n g : Nat} {ws : List Nat} {m' : UMap}
    (hne : st.updateMap ≠ []) (hpop : popGroup st.updateMap = ((g, ws), m')) :
    drainFuel (n + 1) st
      = ((resolveEntry g ws { st with updateMap := m' }).1
          ++ (drainFuel n (resolveEntry g ws { st with updateMap := m' }).2).1,
         (drainFuel n (resolveEntry g ws { st with updateMap := m' }).2).2) := by
  have hbool : st.updateMap.isEmpty = false := by
    cases hul : st.updateMap
    · exact absurd hul hne
    · rfl
  simp only [drainFuel]
  rw [if_neg (by simp [hbool])]
  rw [hpop]

/-- Claim C9. In poll mode (`waitTimeout == 0.0`) every main-loop iteration
re-posts `(AllWindowGroupIDs, AllWindowIDs)` into the update queue right
after `glfwPollEvents()`, so the next drain of the queue pops the
subsuming all-entry (clearing the queue) and redraws the attached windows
of every existing group plus every ungrouped live window (where
"ungrouped" is the source's `getAllUngroupedWindowIDs`: windows with no
key in `windowGroupMap`) — on every iteration, not only on the first
seeded frame. Group workers are modelled synchronously: the concurrent
case runs the identical `updateWindows` body on the worker. -/
theorem poll_mode_reposts_and_redraws_everything :
    (∀ st : MLState,
      inUMap AllWindowGroupIDs AllWindowIDs (pollEventsPhase st).updateMap) ∧
    (∀ (st : MLState) (n : Nat),
      inUMap AllWindowGroupIDs AllWindowIDs st.updateMap →
      (drainFuel (n + 1) st).1
          = (st.groups.map (·.attached)).flatten ++ ungroupedWindows st ∧
      (drainFuel (n + 1) st).2.updateMap = []) := by
  constructor
  · intro st
    exact inUMap_setToUpdate_self _ _ _
  · intro st n h
    obtain ⟨s, hs, hw⟩ := h
    have hpop : popGroup st.updateMap = ((AllWindowGroupIDs, [AllWindowIDs]), []) :=
      popGroup_sentinel (sentinelSet_of_lookupAll hs) hw
    have hne : st.updateMap ≠ [] := lookupSet_ne_nil hs
    rw [drainFuel_succ hne hpop, resolveEntry_all]
    rw [drainFuel_of_empty n _ rfl]
    constructor
    · simp [ungroupedWindows]
    · rfl

/-- Witness for the C9 theorem: one group (id 0) with attached window 4,
windows 4 and 9 live, window 4 mapped to group 0 — after the poll-mode
re-post, one drain pass draws the group's window 4 and the ungrouped
window 9, and leaves the queue empty. -/
theorem poll_mode_reposts_witness :
    (drainFuel 1 (pollEventsPhase ⟨[⟨0, [4], []⟩], [4, 9], [(4, 0)], []⟩)).1
        = [4, 9] ∧
    (drainFuel 1 (pollEventsPhase ⟨[⟨0, [4], []⟩], [4, 9], [(4, 0)], []⟩)).2.updateMap
        = [] := by
  have h := poll_mode_reposts_and_redraws_everything
  have h1 := h.1 ⟨[⟨0, [4], []⟩], [4, 9], [(4, 0)], []⟩
  have h2 := h.2 (pollEventsPhase ⟨[⟨0, [4], []⟩], [4, 9], [(4, 0)], []⟩) 0 h1
  refine ⟨?_, h2.2⟩
  rw [h2.1]
  decide

/-- Claim C10. `WindowManager::windowCloseCallback` dispatches the close
event but requests no redraw: the update map and every group's pending set
are exactly as before. Every other event callback (they all share the
same tail code, embedded as `otherEventCallback`) on a registered live
window either marks the window pending in its concurrently-running group
or posts `(gID, wID)` to the update queue. -/
theorem close_event_requests_no_redraw :
    (∀ (st : DispatchSt) (w : Nat),
      (windowCloseCallback w st).updateMap = st.updateMap ∧
      (windowCloseCallback w st).pending = st.pending) ∧
    (∀ (st : DispatchSt) (w : Nat), ¬ LastWindowID < w → w ∈ st.liveWindows →
      ((getWindowGroup st.wgMap w ∈ st.groupIDs ∧
        getWindowGroup st.wgMap w ∈ st.concurrent ∧
        (otherEventCallback w st).pending
            = pendInsert (getWindowGroup st.wgMap w) w st.pending ∧
        (otherEventCallback w st).updateMap = st.updateMap) ∨
      ((otherEventCallback w st).updateMap
            = setToUpdate (getWindowGroup st.wgMap w) w st.updateMap ∧
        (otherEventCallback w st).pending = st.pending))) := by
  constructor
  · intro st w
    unfold windowCloseCallback
    by_cases h1 : LastWindowID < w
    · simp [h1]
    · by_cases h2 : w ∈ st.liveWindows <;> simp [h1, h2]
  · intro st w h1 h2
    unfold otherEventCallback
    rw [if_neg h1, if_neg (by simpa using h2)]
    by_cases h3 : getWindowGroup st.wgMap w ∈ st.groupIDs ∧
        getWindowGroup st.wgMap w ∈ st.concurrent
    · left
      refine ⟨h3.1, h3.2, ?_, ?_⟩ <;> simp [h3]
    · right
      constructor <;> simp [h3]

/-- Witness for the C10 theorem: window 4 is live and mapped to group 0,
which exists and runs concurrently — the close callback leaves the update
map untouched, while the generic callback takes one of the two
redraw-request branches. -/
theorem close_event_requests_no_redraw_witness :
    (windowCloseCallback 4 ⟨[4], [0], [0], [], [(4, 0)], [], []⟩).updateMap = [] ∧
    ((getWindowGroup [(4, 0)] 4 ∈ [0] ∧ getWindowGroup [(4, 0)] 4 ∈ [0] ∧
      (otherEventCallback 4 ⟨[4], [0], [0], [], [(4, 0)], [], []⟩).pending
          = pendInsert (getWindowGroup [(4, 0)] 4) 4 [] ∧
      (otherEventCallback 4 ⟨[4], [0], [0], [], [(4, 0)], [], []⟩).updateMap = []) ∨
    ((otherEventCallback 4 ⟨[4], [0], [0], [], [(4, 0)], [], []⟩).updateMap
          = setToUpdate (getWindowGroup [(4, 0)] 4) 4 [] ∧
      (otherEventCallback 4 ⟨[4], [0], [0], [], [(4, 0)], [], []⟩).pending = [])) := by
  have h := close_event_requests_no_redraw
  exact ⟨(h.1 ⟨[4], [0], [0], [], [(4, 0)], [], []⟩ 4).1,
    h.2 ⟨[4], [0], [0], [], [(4, 0)], [], []⟩ 4 (by decide) (by decide)⟩

end Glfwm
